import Mathlib

/-!
Verification development for the XML regression-comparison engine
(`modules/comparison.py`): the text normalizer `clean_xml_string`, the
recursive tree comparator `compare_xml`, and the orchestrator
`process_comparison`.  Python functions are shallowly embedded as
executable Lean functions over `List Char` / explicit tree structures;
fallible steps return `Except`.  Library collaborators (the
`unicode_escape` codec, `html.unescape`, the `re.sub` attribute-repair
pattern, and the lxml element interface) are modelled explicitly, each
with a doc comment stating the modelled behaviour.
-/

/-- The single-quote character (U+0027), used when rendering diff messages. -/
def sqC : Char := Char.ofNat 39

/-- The double-quote character (U+0022). -/
def dqC : Char := Char.ofNat 34

/-- Wrap a string in single quotes, as the Python f-strings
`f"... \x7bx\x7d ..."` of the diff messages do. -/
def qw (s : String) : String := String.mk (sqC :: s.data) ++ String.mk [sqC]

deriving instance DecidableEq for Except

/-- A dynamically-typed input value as received from JSON: either a
string or some non-string value.  `clean_xml_string` begins with
`if not isinstance(raw, str): return ""`; all non-string values take
that branch identically, so they are collapsed into one constructor. -/
inductive PyValue where
  | str (s : String)
  | nonStr
deriving DecidableEq

/-- UTF-8 encoding of a single character (the `raw.encode("utf-8")` step). -/
def utf8EncodeChar (c : Char) : List Nat :=
  if c.toNat < 0x80 then [c.toNat]
  else if c.toNat < 0x800 then
    [0xC0 + c.toNat / 0x40, 0x80 + c.toNat % 0x40]
  else if c.toNat < 0x10000 then
    [0xE0 + c.toNat / 0x1000, 0x80 + c.toNat / 0x40 % 0x40,
     0x80 + c.toNat % 0x40]
  else
    [0xF0 + c.toNat / 0x40000, 0x80 + c.toNat / 0x1000 % 0x40,
     0x80 + c.toNat / 0x40 % 0x40, 0x80 + c.toNat % 0x40]

/-- UTF-8 encoding of a character sequence (`str.encode("utf-8")`). -/
def utf8Encode : List Char → List Nat
  | [] => []
  | c :: cs => utf8EncodeChar c ++ utf8Encode cs

/-- Is `b` the code of an ASCII hexadecimal digit? -/
def isHexByte (b : Nat) : Bool :=
  (48 ≤ b && b ≤ 57) || (97 ≤ b && b ≤ 102) || (65 ≤ b && b ≤ 70)

/-- Numeric value of an ASCII hexadecimal digit code. -/
def hexVal (b : Nat) : Nat :=
  if b ≤ 57 then b - 48 else if 97 ≤ b then b - 87 else b - 55

/-- Is `b` the code of an octal digit? -/
def isOctByte (b : Nat) : Bool := 48 ≤ b && b ≤ 55

/-- Error message for a lone trailing backslash, modelling the
`UnicodeDecodeError` raised by the `unicode_escape` codec. -/
def uEndMsg : String := "unicodeescape codec: backslash at end of string"

/-- Error message for a truncated `\xXX` escape. -/
def uTruncXMsg : String := "unicodeescape codec: truncated hex escape"

/-- Error message for a truncated `\uXXXX` or `\UXXXXXXXX` escape. -/
def uTruncUMsg : String := "unicodeescape codec: truncated unicode escape"

/-- Error message for a `\N` character-name escape (not modelled). -/
def uNameMsg : String := "unicodeescape codec: character name escape"

/-- Convert a code point to a `Char`.  Code points that are not valid
`Char`s (lone surrogates, which Python's `str` can hold) are modelled as
U+0000; no theorem below depends on that path. -/
def cpChar (n : Nat) : Char := Char.ofNat n

/-- Models `bytes.decode("unicode_escape")` with strict error handling,
as called on UTF-8 bytes by `clean_xml_string` step 1.  Non-backslash
bytes decode as Latin-1; backslash escapes follow CPython's
`unicode_escape` decoder: line continuation, the single-character
escapes, up-to-three-digit octal, `\xXX`, `\uXXXX`, `\UXXXXXXXX`
(truncated forms are errors), unknown escapes kept verbatim, a trailing
backslash is an error.  `\N{...}` name escapes are not modelled and are
treated as errors; no theorem below exercises them.
The handler `uEsc` treats the bytes following a backslash; it is not
itself recursive: decoding of the remaining bytes is the continuation
`k`, so that the overall recursion in `uDecF` stays structural. -/
def uEsc (k : List Nat → Except String (List Char)) :
    List Nat → Except String (List Char)
  | [] => .error uEndMsg
  | e :: r2 =>
    if e = 10 then k r2
    else if e = 92 then (k r2).map (fun cs => cpChar 92 :: cs)
    else if e = 39 then (k r2).map (fun cs => cpChar 39 :: cs)
    else if e = 34 then (k r2).map (fun cs => cpChar 34 :: cs)
    else if e = 98 then (k r2).map (fun cs => cpChar 8 :: cs)
    else if e = 102 then (k r2).map (fun cs => cpChar 12 :: cs)
    else if e = 116 then (k r2).map (fun cs => cpChar 9 :: cs)
    else if e = 110 then (k r2).map (fun cs => cpChar 10 :: cs)
    else if e = 114 then (k r2).map (fun cs => cpChar 13 :: cs)
    else if e = 118 then (k r2).map (fun cs => cpChar 11 :: cs)
    else if e = 97 then (k r2).map (fun cs => cpChar 7 :: cs)
    else if isOctByte e then
      match r2 with
      | o2 :: r3 =>
        if isOctByte o2 then
          match r3 with
          | o3 :: r4 =>
            if isOctByte o3 then
              (k r4).map (fun cs =>
                cpChar ((e - 48) * 64 + (o2 - 48) * 8 + (o3 - 48)) :: cs)
            else
              (k r3).map (fun cs => cpChar ((e - 48) * 8 + (o2 - 48)) :: cs)
          | [] => .ok [cpChar ((e - 48) * 8 + (o2 - 48))]
        else (k r2).map (fun cs => cpChar (e - 48) :: cs)
      | [] => .ok [cpChar (e - 48)]
    else if e = 120 then
      match r2 with
      | h1 :: h2 :: r3 =>
        if isHexByte h1 && isHexByte h2 then
          (k r3).map (fun cs => cpChar (hexVal h1 * 16 + hexVal h2) :: cs)
        else .error uTruncXMsg
      | _ => .error uTruncXMsg
    else if e = 117 then
      match r2 with
      | h1 :: h2 :: h3 :: h4 :: r3 =>
        if isHexByte h1 && isHexByte h2 && isHexByte h3 && isHexByte h4 then
          (k r3).map (fun cs =>
            cpChar (((hexVal h1 * 16 + hexVal h2) * 16 + hexVal h3) * 16 +
              hexVal h4) :: cs)
        else .error uTruncUMsg
      | _ => .error uTruncUMsg
    else if e = 85 then
      match r2 with
      | h1 :: h2 :: h3 :: h4 :: h5 :: h6 :: h7 :: h8 :: r3 =>
        if isHexByte h1 && isHexByte h2 && isHexByte h3 && isHexByte h4 &&
           isHexByte h5 && isHexByte h6 && isHexByte h7 && isHexByte h8 then
          let v := (((((((hexVal h1 * 16 + hexVal h2) * 16 + hexVal h3) * 16 +
            hexVal h4) * 16 + hexVal h5) * 16 + hexVal h6) * 16 +
            hexVal h7) * 16 + hexVal h8)
          if v ≤ 0x10FFFF then (k r3).map (fun cs => cpChar v :: cs)
          else .error uTruncUMsg
        else .error uTruncUMsg
      | _ => .error uTruncUMsg
    else if e = 78 then .error uNameMsg
    else (k r2).map (fun cs => cpChar 92 :: cpChar e :: cs)

/-- The byte-list decoder loop.  The `fuel` argument makes the
recursion structural: every step consumes at least one byte, so `fuel`
initialized to the byte count (as `uDec` does) never runs out; the
zero-fuel case is unreachable. -/
def uDecF : Nat → List Nat → Except String (List Char)
  | _, [] => .ok []
  | 0, _ :: _ => .ok []
  | fuel + 1, b :: rest =>
    if b ≠ 92 then (uDecF fuel rest).map (fun cs => cpChar b :: cs)
    else uEsc (fun l2 => uDecF fuel l2) rest

/-- Decoding `bytes.decode("unicode_escape")` on a byte list: `uDecF` with enough
fuel (one unit per byte). -/
def uDec (l : List Nat) : Except String (List Char) := uDecF l.length l

/-- Models `html.unescape` (step 2), restricted to the five XML named
character references; other ampersand sequences (numeric references,
the long HTML5 name table) are left untouched.  On text containing no
ampersand it is the identity, exactly as the Python original.  The
`fuel` argument makes the recursion structural; every step consumes at
least one character, so fuel initialized to the length (as
`htmlUnescape` does) never runs out.  The entity handler `htmlEnt`
treats the characters following an ampersand, with the continuation `k`
standing for the recursive unescaping of what remains. -/
def htmlEnt (k : List Char → List Char) (rest : List Char) : List Char :=
  match rest with
  | 'l' :: 't' :: ';' :: r => '<' :: k r
  | 'g' :: 't' :: ';' :: r => '>' :: k r
  | 'a' :: 'm' :: 'p' :: ';' :: r => '&' :: k r
  | 'q' :: 'u' :: 'o' :: 't' :: ';' :: r => dqC :: k r
  | 'a' :: 'p' :: 'o' :: 's' :: ';' :: r => sqC :: k r
  | _ => '&' :: k rest

/-- The unescaper loop over the characters. -/
def htmlUnescapeF : Nat → List Char → List Char
  | _, [] => []
  | 0, l => l
  | fuel + 1, c :: rest =>
    if c = '&' then htmlEnt (fun l2 => htmlUnescapeF fuel l2) rest
    else c :: htmlUnescapeF fuel rest

/-- Running `html.unescape` on a character list: `htmlUnescapeF` with enough
fuel (one unit per character). -/
def htmlUnescape (l : List Char) : List Char := htmlUnescapeF l.length l

/-- Models `text.replace('""', '"')`: left-to-right, non-overlapping
collapsing of doubled double quotes. -/
def collapseDQ : List Char → List Char
  | [] => []
  | c :: rest =>
    if c = dqC then
      match rest with
      | d :: r2 =>
        if d = dqC then dqC :: collapseDQ r2 else dqC :: collapseDQ (d :: r2)
      | [] => [dqC]
    else c :: collapseDQ rest

/-- Word character of the regex `\w` (step 4).  Python's `\w` is
Unicode-aware; the inputs of this development are ASCII, for which this
ASCII model agrees. -/
def isWordChar (c : Char) : Bool := c.isAlpha || c.isDigit || c = '_'

/-- Value character of the regex class `[\w:\-\.\/]` (step 4). -/
def isValChar (c : Char) : Bool :=
  isWordChar c || c = ':' || c = '-' || c = '.' || c = '/'

/-- Scanner state for the attribute-repair substitution
`re.sub(r'(\w+)=([\w:\-\.\/]+)', r'\1="\2"', text)`:
outside any candidate, inside a word run, just past `=`, or inside an
unquoted value.  Accumulators are kept reversed. -/
inductive FixSt where
  | scan
  | word (acc : List Char)
  | eq (acc : List Char)
  | val (acc vacc : List Char)

/-- Flush the scanner state at end of input. -/
def fixFlush : FixSt → List Char
  | .scan => []
  | .word acc => acc.reverse
  | .eq acc => acc.reverse ++ ['=']
  | .val acc vacc => acc.reverse ++ '=' :: dqC :: vacc.reverse ++ [dqC]

/-- One-character-at-a-time scanner implementing the `re.sub` of step 4.
A match begins at a word character only; a maximal word run followed by
`=` and at least one value character is rewritten to `word="value"`;
failed candidates are emitted verbatim and scanning resumes at the first
character that could start a new match, exactly as the regex engine's
left-to-right scan does. -/
def fixStep : FixSt → List Char → List Char
  | st, [] => fixFlush st
  | .scan, c :: rest =>
    if isWordChar c then fixStep (.word [c]) rest else c :: fixStep .scan rest
  | .word acc, c :: rest =>
    if isWordChar c then fixStep (.word (c :: acc)) rest
    else if c = '=' then fixStep (.eq acc) rest
    else acc.reverse ++ c :: fixStep .scan rest
  | .eq acc, c :: rest =>
    if isValChar c then fixStep (.val acc [c]) rest
    else acc.reverse ++ '=' :: c :: fixStep .scan rest
  | .val acc vacc, c :: rest =>
    if isValChar c then fixStep (.val acc (c :: vacc)) rest
    else acc.reverse ++ '=' :: dqC :: vacc.reverse ++ dqC :: c :: fixStep .scan rest

/-- Step 4 of `clean_xml_string`: quote unquoted attribute values. -/
def fixAttrs (l : List Char) : List Char := fixStep .scan l

/-- Python `str.isspace` characters relevant to `str.strip()` (ASCII). -/
def pyIsSpace (c : Char) : Bool :=
  c = ' ' || c = Char.ofNat 9 || c = Char.ofNat 10 || c = Char.ofNat 13 ||
  c = Char.ofNat 11 || c = Char.ofNat 12

/-- Python `str.strip()` on a character list. -/
def pyStripL (l : List Char) : List Char :=
  ((l.dropWhile pyIsSpace).reverse.dropWhile pyIsSpace).reverse

/-- Python `str.strip()` on strings (used for identifiers and text). -/
def pyStrip (s : String) : String := String.mk (pyStripL s.data)

/-- Index of the first occurrence of the two-character sequence `?>`
(`text.find("?>")`). -/
def findQM : List Char → Option Nat
  | '?' :: '>' :: _ => some 0
  | _ :: rest => (findQM rest).map (· + 1)
  | [] => none

/-- Index of the first `<` character (`text.find("<")`). -/
def findLt : List Char → Option Nat
  | '<' :: _ => some 0
  | _ :: rest => (findLt rest).map (· + 1)
  | [] => none

/-- Step 5 declaration handling: if `?>` occurs, keep everything up to
it and splice it to the next `<` after it (when one exists). -/
def declTrim (l : List Char) : List Char :=
  match findQM l with
  | none => l
  | some i =>
    let decl := l.take (i + 2)
    let rest := l.drop (i + 2)
    match findLt rest with
    | none => l
    | some j => decl ++ rest.drop j

/-- Step 6: truncate everything before the first `<`, when one exists. -/
def ltTrim (l : List Char) : List Char :=
  match findLt l with
  | none => l
  | some k => l.drop k

/-- Embedding of `clean_xml_string` (comparison.py lines 44-75).  The
`unicode_escape` decoding of step 1 can fail, which the Python original
lets escape as an uncaught exception; this is the `.error` case. -/
def clean_xml_string (raw : PyValue) : Except String String :=
  match raw with
  | .nonStr => .ok ""
  | .str s =>
    match uDec (utf8Encode s.data) with
    | .error e => .error e
    | .ok cs =>
      let cs := htmlUnescape cs
      let cs := cs.filter (fun c => c ≠ ',')
      let cs := collapseDQ cs
      let cs := cs.filter (fun c => c ≠ dqC)
      let cs := fixAttrs cs
      let cs := pyStripL cs
      let cs := declTrim cs
      let cs := ltTrim cs
      .ok (String.mk cs)

example : clean_xml_string (.str "abc") = .ok "abc" := by decide
example : clean_xml_string (.str "\\") = .error uEndMsg := by decide
example : clean_xml_string (.str "<a>\\\\n</a>") = .ok "<a>\\n</a>" := by decide
example : clean_xml_string (.str "<a>\\n</a>") = .ok "<a>\n</a>" := by decide
example :
    clean_xml_string (.str "<a version=1.0><b>x</b></a>") =
      .ok "<a version=\"1.0\"><b>x</b></a>" := by decide
example : clean_xml_string (.str "junk?>more<a>") = .ok "<a>" := by decide
example :
    clean_xml_string (.str "\"73\",,\"<Doc><MsgId>7</MsgId></Doc>\"") =
      .ok "<Doc><MsgId>7</MsgId></Doc>" := by decide

/-- A parsed XML element as exposed by the lxml collaborator: qualified
tag (Clark notation `\x7buri\x7dlocal` for namespaced tags), attribute
pairs in document order, direct text content before the first child
(`elem.text`, `none` when absent), tail text following the element's end
tag (`elem.tail` — present on the interface, never read by
`compare_xml`), and the ordered child elements. -/
inductive XmlElem where
  | mk (tag : String) (attrib : List (String × String))
      (text : Option String) (tail : Option String)
      (children : List XmlElem)

/-- Qualified tag of an element (`elem.tag`). -/
def XmlElem.tag : XmlElem → String
  | .mk t _ _ _ _ => t

/-- Attribute pairs of an element (`elem.attrib`). -/
def XmlElem.attrib : XmlElem → List (String × String)
  | .mk _ a _ _ _ => a

/-- Direct text content of an element (`elem.text`). -/
def XmlElem.text : XmlElem → Option String
  | .mk _ _ x _ _ => x

/-- Tail text of an element (`elem.tail`). -/
def XmlElem.tail : XmlElem → Option String
  | .mk _ _ _ l _ => l

/-- Child elements of an element (`list(elem)`). -/
def XmlElem.children : XmlElem → List XmlElem
  | .mk _ _ _ _ c => c

/-- Function `strip_namespace` (comparison.py line 82): `tag.split('\x7d')[-1]`,
the suffix after the last closing brace (the whole tag when none). -/
def strip_namespace (tag : String) : String :=
  String.mk (tag.data.reverse.takeWhile (fun c => c ≠ '\x7d')).reverse

example : strip_namespace "\x7bns\x7dMsgId" = "MsgId" := by decide
example : strip_namespace "Amt" = "Amt" := by decide

/-- Constant `IGNORED_TAGS` (comparison.py line 80); the Python set is modelled
as a list with membership by local tag name. -/
def IGNORED_TAGS : List String := ["BizMsgIdr", "CreDt", "MsgId"]

/-- Equality of attribute mappings, modelling `elem_a.attrib !=
elem_b.attrib` on lxml attribute mappings: key-for-key value equality,
order-independent, as for Python dicts.  XML attribute names are unique
per element, so first-occurrence lookup agrees with the dict view. -/
def attribEq (xs ys : List (String × String)) : Bool :=
  decide (∀ k ∈ xs.map Prod.fst ++ ys.map Prod.fst, xs.lookup k = ys.lookup k)

/-- One structural discrepancy, as accumulated by `recurse` inside
`compare_xml`; `render` below produces exactly the f-string each
`diffs.append(...)` call builds. -/
inductive DiffEntry where
  | tagMismatch (path la lb : String)
  | valueMismatch (path ta tb : String)
  | attrMismatch (path : String) (aa ab : List (String × String))
  | childCountMismatch (path : String) (na nb : Nat)
deriving DecidableEq

/-- Path carried by a diff entry. -/
def DiffEntry.path : DiffEntry → String
  | .tagMismatch p _ _ => p
  | .valueMismatch p _ _ => p
  | .attrMismatch p _ _ => p
  | .childCountMismatch p _ _ => p

/-- Rendering of an attribute mapping inside the attribute-mismatch
message, modelling the mapping's Python repr `\x7b'k': 'v', ...\x7d`. -/
def reprAttrib (xs : List (String × String)) : String :=
  "\x7b" ++ ", ".intercalate (xs.map fun p => qw p.1 ++ ": " ++ qw p.2) ++ "\x7d"

/-- The exact message string `recurse` appends for each discrepancy. -/
def render : DiffEntry → String
  | .tagMismatch p la lb =>
    "Tag mismatch at " ++ p ++ ": " ++ qw la ++ " != " ++ qw lb
  | .valueMismatch p ta tb =>
    "Value mismatch at " ++ p ++ ": " ++ qw ta ++ " != " ++ qw tb
  | .attrMismatch p aa ab =>
    "Attribute mismatch at " ++ p ++ ": " ++ reprAttrib aa ++ " != " ++ reprAttrib ab
  | .childCountMismatch p na nb =>
    "Child count mismatch at " ++ p ++ ": " ++ toString na ++ " != " ++ toString nb

/-- The body of `compare_xml` (comparison.py lines 103-137), with the
pairwise loop over `zip(children_a, children_b)` fused into the list
recursion: `cmpL (a :: restA) (b :: restB) path` is `recurse(a, b,
path)`'s entries followed by the remaining zipped pairs', and the
two base cases are `zip`'s truncation at the shorter list.  Inside one
pair, order follows the source: tag check (qualified tags, stop on
mismatch), ignore check (local tag), text, attributes, child count,
then the children. -/
def cmpL : List XmlElem → List XmlElem → String → List DiffEntry
  | [], _, _ => []
  | _ :: _, [], _ => []
  | .mk ta aa xa _ ca :: restA, .mk tb ab xb _ cb :: restB, path =>
    (if ta ≠ tb then
      [.tagMismatch path (strip_namespace ta) (strip_namespace tb)]
    else if strip_namespace ta ∈ IGNORED_TAGS then []
    else
      (if pyStrip (xa.getD "") ≠ pyStrip (xb.getD "") then
        [.valueMismatch (path ++ "/" ++ strip_namespace ta)
          (pyStrip (xa.getD "")) (pyStrip (xb.getD ""))] else []) ++
      (if ¬ attribEq aa ab then
        [.attrMismatch (path ++ "/" ++ strip_namespace ta) aa ab] else []) ++
      (if ca.length ≠ cb.length then
        [.childCountMismatch (path ++ "/" ++ strip_namespace ta)
          ca.length cb.length] else []) ++
      cmpL ca cb (path ++ "/" ++ strip_namespace ta)) ++
    cmpL restA restB path

/-- Call `recurse(elem_a, elem_b, path)` on a single node pair. -/
def recurseCmp (a b : XmlElem) (path : String) : List DiffEntry :=
  cmpL [a] [b] path

/-- Function `compare_xml` (comparison.py line 96): the rendered message list of
the recursive diff started at the two root elements with empty path. -/
def compare_xml (a b : XmlElem) : List String :=
  (cmpL [a] [b] "").map render

/-- Fuel-indexed version of `cmpL`, used to evaluate the comparator
inside the kernel (the well-founded recursion of `cmpL` does not
reduce definitionally).  `cmpL_eq_fuel` shows the two agree whenever
the fuel dominates the size of the first argument. -/
def cmpLF : Nat → List XmlElem → List XmlElem → String → List DiffEntry
  | _, [], _, _ => []
  | _, _ :: _, [], _ => []
  | 0, _ :: _, _ :: _, _ => []
  | fuel + 1, .mk ta aa xa _ ca :: restA, .mk tb ab xb _ cb :: restB, path =>
    (if ta ≠ tb then
      [.tagMismatch path (strip_namespace ta) (strip_namespace tb)]
    else if strip_namespace ta ∈ IGNORED_TAGS then []
    else
      (if pyStrip (xa.getD "") ≠ pyStrip (xb.getD "") then
        [.valueMismatch (path ++ "/" ++ strip_namespace ta)
          (pyStrip (xa.getD "")) (pyStrip (xb.getD ""))] else []) ++
      (if ¬ attribEq aa ab then
        [.attrMismatch (path ++ "/" ++ strip_namespace ta) aa ab] else []) ++
      (if ca.length ≠ cb.length then
        [.childCountMismatch (path ++ "/" ++ strip_namespace ta)
          ca.length cb.length] else []) ++
      cmpLF fuel ca cb (path ++ "/" ++ strip_namespace ta)) ++
    cmpLF fuel restA restB path

theorem cmpL_eq_fuel :
    ∀ (fuel : Nat) (la lb : List XmlElem) (p : String), sizeOf la ≤ fuel →
      cmpL la lb p = cmpLF fuel la lb p := by
  intro fuel
  induction fuel with
  | zero =>
    intro la lb p h
    exfalso
    cases la with
    | nil => rw [List.nil.sizeOf_spec] at h; omega
    | cons a r => rw [List.cons.sizeOf_spec] at h; omega
  | succ fuel ih =>
    intro la lb p h
    match la, lb with
    | [], _ => simp [cmpL, cmpLF]
    | _ :: _, [] => simp [cmpL, cmpLF]
    | .mk ta aa xa tla ca :: restA, .mk tb ab xb tlb cb :: restB =>
      have hca : sizeOf ca ≤ fuel := by
        simp [List.cons.sizeOf_spec, XmlElem.mk.sizeOf_spec] at h; omega
      have hra : sizeOf restA ≤ fuel := by
        simp [List.cons.sizeOf_spec, XmlElem.mk.sizeOf_spec] at h; omega
      rw [cmpL, cmpLF]
      rw [ih ca cb _ hca, ih restA restB p hra]

/-- Kernel-evaluation form of `compare_xml`. -/
theorem compare_xml_evalF (fuel : Nat) (a b : XmlElem)
    (h : sizeOf ([a] : List XmlElem) ≤ fuel) :
    compare_xml a b = (cmpLF fuel [a] [b] "").map render := by
  unfold compare_xml
  rw [cmpL_eq_fuel fuel [a] [b] "" h]

/-- Kernel-evaluation form of `recurseCmp`. -/
theorem recurseCmp_evalF (fuel : Nat) (a b : XmlElem) (p : String)
    (h : sizeOf ([a] : List XmlElem) ≤ fuel) :
    recurseCmp a b p = cmpLF fuel [a] [b] p := by
  unfold recurseCmp
  rw [cmpL_eq_fuel fuel [a] [b] p h]

/-- Pointwise equality of element lists ignoring every `tail` field:
same tags, attributes, text and (recursively) children. -/
def eqModTailL : List XmlElem → List XmlElem → Bool
  | [], [] => true
  | .mk ta aa xa _ ca :: restA, .mk tb ab xb _ cb :: restB =>
    ta == tb && aa == ab && xa == xb && eqModTailL ca cb &&
      eqModTailL restA restB
  | _, _ => false

/-- Two trees are equal modulo tail text when they agree on everything
`compare_xml` could inspect, differing at most in `tail` fields. -/
def equalModTail (a b : XmlElem) : Bool := eqModTailL [a] [b]

example :
    compare_xml
      (.mk "Msg" [] none none
        [.mk "BizMsgIdr" [] (some "ABC") none [],
         .mk "Amt" [] (some "10") none []])
      (.mk "Msg" [] none none
        [.mk "BizMsgIdr" [] (some "XYZ") none [],
         .mk "Amt" [] (some "10") none []]) = [] := by
  rw [compare_xml_evalF 1000000 _ _ (by decide)]; decide

example :
    recurseCmp
      (XmlElem.mk "Msg" [] none none [.mk "Amt" [] (some "10") none []])
      (XmlElem.mk "Msg" [] none none [.mk "Amt" [] (some "20") none []])
      "" = [.valueMismatch "/Msg/Amt" "10" "20"] := by
  rw [recurseCmp_evalF 1000000 _ _ _ (by decide)]; decide

example :
    recurseCmp
      (XmlElem.mk "Msg" [] none none
        [.mk "A" [] none none [], .mk "B" [] none none []])
      (XmlElem.mk "Msg" [] none none [.mk "A" [] none none []])
      "" = [.childCountMismatch "/Msg" 2 1] := by
  rw [recurseCmp_evalF 1000000 _ _ _ (by decide)]; decide

example :
    compare_xml (.mk "\x7bns1\x7da" [] none none [])
      (.mk "\x7bns2\x7da" [] none none []) =
      [render (.tagMismatch "" "a" "a")] := by
  rw [compare_xml_evalF 1000000 _ _ (by decide)]; decide

/-- Fuel-indexed version of `eqModTailL` for kernel evaluation;
`eqModTailL_eq_fuel` shows agreement when the fuel dominates the size
of the first argument. -/
def eqModTailLF : Nat → List XmlElem → List XmlElem → Bool
  | _, [], [] => true
  | fuel + 1, .mk ta aa xa _ ca :: restA, .mk tb ab xb _ cb :: restB =>
    ta == tb && aa == ab && xa == xb && eqModTailLF fuel ca cb &&
      eqModTailLF fuel restA restB
  | _, _, _ => false

theorem eqModTailL_eq_fuel :
    ∀ (fuel : Nat) (la lb : List XmlElem), sizeOf la ≤ fuel →
      eqModTailL la lb = eqModTailLF fuel la lb := by
  intro fuel
  induction fuel with
  | zero =>
    intro la lb h
    exfalso
    cases la with
    | nil => rw [List.nil.sizeOf_spec] at h; omega
    | cons a r => rw [List.cons.sizeOf_spec] at h; omega
  | succ fuel ih =>
    intro la lb h
    match la, lb with
    | [], [] => simp [eqModTailL, eqModTailLF]
    | [], _ :: _ => simp [eqModTailL, eqModTailLF]
    | _ :: _, [] => simp [eqModTailL, eqModTailLF]
    | .mk ta aa xa tla ca :: restA, .mk tb ab xb tlb cb :: restB =>
      have hca : sizeOf ca ≤ fuel := by
        rw [List.cons.sizeOf_spec, XmlElem.mk.sizeOf_spec] at h; omega
      have hra : sizeOf restA ≤ fuel := by
        rw [List.cons.sizeOf_spec, XmlElem.mk.sizeOf_spec] at h; omega
      rw [eqModTailL, eqModTailLF, ih ca cb hca, ih restA restB hra]

/-- Kernel-evaluation form of `equalModTail`. -/
theorem equalModTail_evalF (fuel : Nat) (a b : XmlElem)
    (h : sizeOf ([a] : List XmlElem) ≤ fuel) :
    equalModTail a b = eqModTailLF fuel [a] [b] := by
  unfold equalModTail
  rw [eqModTailL_eq_fuel fuel [a] [b] h]

/-- A reference record as consumed by `process_comparison`: the `"#"`
identifier (after the orchestrator's `str(...)` coercion; `.strip()` is
applied at each use, as in the source), display metadata, and the raw
`"Full MX-Message:"` value, which may be a non-string JSON value. -/
structure RefEntry where
  id : String
  name : String
  description : String
  expected : String
  rawXml : PyValue
deriving DecidableEq

/-- A test record: the `title` (after `str(...)` coercion) and the raw
`content` value. -/
structure TestEntry where
  title : String
  content : PyValue
deriving DecidableEq

/-- The lookup `test_data_map.get(ref_id)` where `test_data_map` maps
each stripped title to its record, later records overwriting earlier
ones: the last test record whose stripped title equals `i`. -/
def lookupTest (tests : List TestEntry) (i : String) : Option TestEntry :=
  (tests.filter (fun t => pyStrip t.title == i)).getLast?

/-- Function `parse_xml` (comparison.py line 87): the external lxml
`etree.fromstring` is the collaborator parameter `parse`; any failure is
wrapped in a `ValueError` carrying the reason and a 100-character
snippet of the failing text with newlines blanked. -/
def parse_xml (parse : String → Except String XmlElem) (s : String) :
    Except String XmlElem :=
  match parse s with
  | .ok x => .ok x
  | .error e =>
    .error ("⚠️ Failed to parse XML: " ++ e ++ "\n  Snippet: " ++
      String.mk ((s.data.take 100).map (fun c => if c = '\n' then ' ' else c)) ++
      "...")

/-- The per-record header block appended to the detailed results. -/
def mkHeader (r : RefEntry) (testTitle : String) : String :=
  "\n🧩 Test #" ++ pyStrip r.id ++ ": " ++ r.name ++
  "\n📄 Description: " ++ r.description ++
  "\n🎯 Expected Result snippet:\n" ++ r.expected ++
  "\n🔁 Comparing Reference ↔ Test " ++ qw testTitle ++ " ..."

/-- Detail line for a reference id with no matching test record. -/
def noMatchMsg (i : String) : String :=
  "⚠️ No matching test record found for Reference #" ++ i ++ "\n"

/-- Detail line for a clean comparison. -/
def okMsg (i : String) : String := "✅ Match OK for #" ++ i ++ "\n"

/-- Detail line opening a diff block. -/
def diffFoundMsg (i : String) : String :=
  "❌ Differences found for #" ++ i ++ ":"

/-- Detail line for a caught parse failure. -/
def xmlErrMsg (i e : String) : String :=
  "⚠️ XML parsing error for #" ++ i ++ ": " ++ e ++ "\n"

/-- One iteration of the `for ref_entry in ref_data` loop of
`process_comparison` (comparison.py lines 165-219): produces the
record's overview line and its detail lines.  The `try/except
ValueError` around parsing is the two `.error` matches on `parse_xml`;
the two `clean_xml_string` calls happen before the `try` block, so a
failure there is NOT caught and aborts the whole run (the outer
`.error` propagation). -/
def processEntry (parse : String → Except String XmlElem)
    (tests : List TestEntry) (r : RefEntry) :
    Except String (String × List String) :=
  match lookupTest tests (pyStrip r.id) with
  | none =>
    .ok ("test " ++ pyStrip r.id ++ " fail (No Match)",
      [noMatchMsg (pyStrip r.id)])
  | some t =>
    match clean_xml_string r.rawXml with
    | .error e => .error e
    | .ok refStr =>
      match clean_xml_string t.content with
      | .error e => .error e
      | .ok testStr =>
        match parse_xml parse refStr with
        | .error e =>
          .ok ("test " ++ pyStrip r.id ++ " fail (XML Error)",
            [mkHeader r (pyStrip t.title), xmlErrMsg (pyStrip r.id) e])
        | .ok refX =>
          match parse_xml parse testStr with
          | .error e =>
            .ok ("test " ++ pyStrip r.id ++ " fail (XML Error)",
              [mkHeader r (pyStrip t.title), xmlErrMsg (pyStrip r.id) e])
          | .ok testX =>
            if (compare_xml refX testX).isEmpty then
              .ok ("test " ++ pyStrip r.id ++ " pass",
                [mkHeader r (pyStrip t.title), okMsg (pyStrip r.id)])
            else
              .ok ("test " ++ pyStrip r.id ++ " fail",
                [mkHeader r (pyStrip t.title), diffFoundMsg (pyStrip r.id)] ++
                (compare_xml refX testX).map (fun d => "   - " ++ d) ++ [""])

/-- The whole loop of `process_comparison`: overview lines and detail
lines accumulated over the reference records in order; an uncaught
normalization exception aborts the remainder. -/
def processAll (parse : String → Except String XmlElem)
    (tests : List TestEntry) : List RefEntry →
    Except String (List String × List String)
  | [] => .ok ([], [])
  | r :: rs =>
    match processEntry parse tests r with
    | .error e => .error e
    | .ok (line, det) =>
      match processAll parse tests rs with
      | .error e => .error e
      | .ok (ov, dets) => .ok (line :: ov, det ++ dets)

/-- Function `process_comparison` (comparison.py line 153) up to the final
`final_results` assembly (lines 222-228); file I/O and the JSON loads
are collaborators, so the reference and test record lists and the
parser are parameters. -/
def process_comparison (parse : String → Except String XmlElem)
    (refs : List RefEntry) (tests : List TestEntry) :
    Except String (List String) :=
  match processAll parse tests refs with
  | .error e => .error e
  | .ok (ov, det) =>
    .ok (["🔍 Starting XML comparison process...\n",
      "Test result overview\n"] ++ ov ++ [""] ++ det)

/-- Value of `cmpL` on the empty lists. -/
theorem cmpL_nil_nil (p : String) : cmpL [] [] p = [] := by simp [cmpL]

/-- One unfolding step of the single-pair diff `recurse(a, b, path)`. -/
theorem recurseCmp_eq (ta : String) (aa : List (String × String))
    (xa tla : Option String) (ca : List XmlElem) (tb : String)
    (ab : List (String × String)) (xb tlb : Option String)
    (cb : List XmlElem) (p : String) :
    recurseCmp (.mk ta aa xa tla ca) (.mk tb ab xb tlb cb) p =
      if ta ≠ tb then
        [.tagMismatch p (strip_namespace ta) (strip_namespace tb)]
      else if strip_namespace ta ∈ IGNORED_TAGS then []
      else
        (if pyStrip (xa.getD "") ≠ pyStrip (xb.getD "") then
          [.valueMismatch (p ++ "/" ++ strip_namespace ta)
            (pyStrip (xa.getD "")) (pyStrip (xb.getD ""))] else []) ++
        (if ¬ attribEq aa ab then
          [.attrMismatch (p ++ "/" ++ strip_namespace ta) aa ab] else []) ++
        (if ca.length ≠ cb.length then
          [.childCountMismatch (p ++ "/" ++ strip_namespace ta)
            ca.length cb.length] else []) ++
        cmpL ca cb (p ++ "/" ++ strip_namespace ta) := by
  unfold recurseCmp
  rw [cmpL, cmpL_nil_nil, List.append_nil]

/-- The sibling loop is independent: the diff of two element lists is
the head pair's diff followed by the remaining pairs' diff. -/
theorem cmpL_cons_eq (a b : XmlElem) (ra rb : List XmlElem) (p : String) :
    cmpL (a :: ra) (b :: rb) p = recurseCmp a b p ++ cmpL ra rb p := by
  match a, b with
  | .mk ta aa xa tla ca, .mk tb ab xb tlb cb =>
    rw [recurseCmp_eq, cmpL]

/-- On a tag mismatch exactly one entry is produced and the subtree is
not entered. -/
theorem recurseCmp_tag_mismatch (a b : XmlElem) (p : String)
    (h : a.tag ≠ b.tag) :
    recurseCmp a b p =
      [.tagMismatch p (strip_namespace a.tag) (strip_namespace b.tag)] := by
  match a, b with
  | .mk ta aa xa tla ca, .mk tb ab xb tlb cb =>
    rw [recurseCmp_eq]
    simp only [XmlElem.tag] at h ⊢
    simp [h]

/-- On equal tags whose local name is ignored, nothing is produced. -/
theorem recurseCmp_ignored (a b : XmlElem) (p : String)
    (hTag : a.tag = b.tag)
    (hIgn : strip_namespace a.tag ∈ IGNORED_TAGS) :
    recurseCmp a b p = [] := by
  match a, b with
  | .mk ta aa xa tla ca, .mk tb ab xb tlb cb =>
    simp only [XmlElem.tag] at hTag hIgn
    subst hTag
    rw [recurseCmp_eq]
    simp [hIgn]

/-- Membership in a conditional singleton forces equality. -/
theorem mem_ite_singleton {α : Type} {c : Prop} [Decidable c] {x d : α}
    (h : d ∈ (if c then [x] else [])) : d = x := by
  split at h
  · simpa using h
  · simp at h

/-- Every entry of the fuelled diff carries a path at least as long as
the path it was started from. -/
theorem cmpLF_path_le :
    ∀ (fuel : Nat) (la lb : List XmlElem) (p : String) (d : DiffEntry),
      d ∈ cmpLF fuel la lb p → p.length ≤ d.path.length := by
  intro fuel
  induction fuel with
  | zero =>
    intro la lb p d hd
    match la, lb with
    | [], _ => simp [cmpLF] at hd
    | _ :: _, [] => simp [cmpLF] at hd
    | _ :: _, _ :: _ => simp [cmpLF] at hd
  | succ fuel ih =>
    intro la lb p d hd
    match la, lb with
    | [], _ => simp [cmpLF] at hd
    | _ :: _, [] => simp [cmpLF] at hd
    | .mk ta aa xa tla ca :: restA, .mk tb ab xb tlb cb :: restB =>
      rw [cmpLF] at hd
      rcases List.mem_append.mp hd with hd1 | hd2
      · have hcur : p.length ≤ (p ++ "/" ++ strip_namespace ta).length := by
          simp only [String.length_append]
          omega
        by_cases hTag : ta = tb
        · subst hTag
          rw [if_neg (fun hcon => hcon rfl)] at hd1
          by_cases hIgn : strip_namespace ta ∈ IGNORED_TAGS
          · rw [if_pos hIgn] at hd1
            simp at hd1
          · rw [if_neg hIgn] at hd1
            rcases List.mem_append.mp hd1 with h1 | h1
            · rcases List.mem_append.mp h1 with h2 | h2
              · rcases List.mem_append.mp h2 with h3 | h3
                · rw [mem_ite_singleton h3]
                  simpa [DiffEntry.path] using hcur
                · rw [mem_ite_singleton h3]
                  simpa [DiffEntry.path] using hcur
              · rw [mem_ite_singleton h2]
                simpa [DiffEntry.path] using hcur
            · exact le_trans hcur (ih ca cb _ d h1)
        · rw [if_pos hTag, List.mem_singleton] at hd1
          subst hd1
          simp [DiffEntry.path]
      · exact ih restA restB p d hd2

/-- Path-growth fact transferred to `cmpL`. -/
theorem cmpL_path_le (la lb : List XmlElem) (p : String) (d : DiffEntry)
    (h : d ∈ cmpL la lb p) : p.length ≤ d.path.length := by
  rw [cmpL_eq_fuel (sizeOf la) la lb p le_rfl] at h
  exact cmpLF_path_le (sizeOf la) la lb p d h

/-- C1, amended: for every pair of nodes visited by `compare_xml`
(every pair reaches `recurse` at its parent path), a `TagMismatch`
entry is emitted for that pair if and only if the two FULL qualified
tags differ — not the namespace-stripped local names.  Stripping is
applied only to the reported names; two nodes with equal local names
but different namespace URIs do produce a `TagMismatch`. -/
theorem C1_tagMismatch_iff_qualified (a b : XmlElem) (p : String) :
    (∃ x y, DiffEntry.tagMismatch p x y ∈ recurseCmp a b p) ↔
      a.tag ≠ b.tag := by
  constructor
  · rintro ⟨x, y, hmem⟩ hEq
    match a, b with
    | .mk ta aa xa tla ca, .mk tb ab xb tlb cb =>
      simp only [XmlElem.tag] at hEq
      subst hEq
      rw [recurseCmp_eq, if_neg (fun hcon => hcon rfl)] at hmem
      have hlen : (p ++ "/" ++ strip_namespace ta).length = p.length +
          "/".length + (strip_namespace ta).length := by
        simp [String.length_append]
      by_cases hIgn : strip_namespace ta ∈ IGNORED_TAGS
      · rw [if_pos hIgn] at hmem
        simp at hmem
      · rw [if_neg hIgn] at hmem
        rcases List.mem_append.mp hmem with h1 | h1
        · rcases List.mem_append.mp h1 with h2 | h2
          · rcases List.mem_append.mp h2 with h3 | h3
            · exact absurd (mem_ite_singleton h3) (by simp)
            · exact absurd (mem_ite_singleton h3) (by simp)
          · exact absurd (mem_ite_singleton h2) (by simp)
        · have := cmpL_path_le ca cb _ _ h1
          simp only [DiffEntry.path] at this
          rw [hlen] at this
          have hs : (1 : Nat) ≤ "/".length := by decide
          omega
  · intro hne
    refine ⟨strip_namespace a.tag, strip_namespace b.tag, ?_⟩
    rw [recurseCmp_tag_mismatch a b p hne]
    simp

/-- Attribute-mapping equality is reflexive. -/
theorem attribEq_rfl (xs : List (String × String)) : attribEq xs xs = true := by
  simp [attribEq]

/-- Lists equal modulo tails have equal lengths. -/
theorem eqModTailLF_len :
    ∀ (fuel : Nat) (la lb : List XmlElem),
      eqModTailLF fuel la lb = true → la.length = lb.length := by
  intro fuel
  induction fuel with
  | zero =>
    intro la lb h
    match la, lb with
    | [], [] => rfl
    | [], _ :: _ => simp [eqModTailLF] at h
    | _ :: _, [] => simp [eqModTailLF] at h
    | _ :: _, _ :: _ => simp [eqModTailLF] at h
  | succ fuel ih =>
    intro la lb h
    match la, lb with
    | [], [] => rfl
    | [], _ :: _ => simp [eqModTailLF] at h
    | _ :: _, [] => simp [eqModTailLF] at h
    | .mk ta aa xa tla ca :: restA, .mk tb ab xb tlb cb :: restB =>
      rw [eqModTailLF] at h
      simp only [Bool.and_eq_true] at h
      simp [ih restA restB h.2]

/-- The comparator finds nothing on lists that are equal modulo tails. -/
theorem cmpLF_empty_of_eqModTail :
    ∀ (fuel : Nat) (la lb : List XmlElem) (p : String),
      eqModTailLF fuel la lb = true → cmpLF fuel la lb p = [] := by
  intro fuel
  induction fuel with
  | zero =>
    intro la lb p h
    match la, lb with
    | [], _ => rw [cmpLF]
    | _ :: _, [] => rw [cmpLF]
    | _ :: _, _ :: _ => rw [cmpLF]
  | succ fuel ih =>
    intro la lb p h
    match la, lb with
    | [], _ => rw [cmpLF]
    | _ :: _, [] => rw [cmpLF]
    | .mk ta aa xa tla ca :: restA, .mk tb ab xb tlb cb :: restB =>
      rw [eqModTailLF] at h
      simp only [Bool.and_eq_true, beq_iff_eq] at h
      obtain ⟨⟨⟨⟨hta, haa⟩, hxa⟩, hca⟩, hrest⟩ := h
      subst hta
      subst haa
      subst hxa
      rw [cmpLF, if_neg (fun hcon => hcon rfl)]
      rw [ih ca cb _ hca, ih restA restB p hrest]
      by_cases hIgn : strip_namespace ta ∈ IGNORED_TAGS
      · rw [if_pos hIgn]
        simp
      · rw [if_neg hIgn]
        rw [if_neg (fun hcon => hcon rfl)]
        rw [if_neg (by simp [attribEq_rfl])]
        rw [if_neg (fun hcon => hcon (eqModTailLF_len fuel ca cb hca))]
        simp

/-- Trees equal modulo tail text produce an empty diff list. -/
theorem compare_xml_empty_of_equalModTail (a b : XmlElem)
    (h : equalModTail a b = true) : compare_xml a b = [] := by
  unfold equalModTail at h
  rw [eqModTailL_eq_fuel (sizeOf ([a] : List XmlElem)) _ _ le_rfl] at h
  unfold compare_xml
  rw [cmpL_eq_fuel (sizeOf ([a] : List XmlElem)) _ _ _ le_rfl]
  rw [cmpLF_empty_of_eqModTail _ _ _ _ h]
  rfl

/-- Value of `findLt` on a list headed by `<`. -/
theorem findLt_cons_lt (rest : List Char) : findLt ('<' :: rest) = some 0 := rfl

/-- Function `findLt` steps over a non-`<` head. -/
theorem findLt_cons_ne (c : Char) (rest : List Char) (h : c ≠ '<') :
    findLt (c :: rest) = (findLt rest).map (· + 1) := by
  rw [findLt.eq_def]
  split <;> simp_all

/-- When `findLt` finds nothing there is no `<` in the list. -/
theorem findLt_none_iff : ∀ l : List Char, findLt l = none ↔ '<' ∉ l := by
  intro l
  induction l with
  | nil => simp [findLt]
  | cons c rest ih =>
    by_cases hc : c = '<'
    · subst hc
      simp [findLt_cons_lt]
    · rw [findLt_cons_ne c rest hc, Option.map_eq_none', ih]
      simp [List.mem_cons, (Ne.symm hc : '<' ≠ c)]

/-- When `findLt` returns an index, the dropped list starts with `<`. -/
theorem findLt_drop : ∀ (l : List Char) (k : Nat), findLt l = some k →
    (l.drop k).head? = some '<' := by
  intro l
  induction l with
  | nil => intro k h; simp [findLt] at h
  | cons c rest ih =>
    intro k h
    by_cases hc : c = '<'
    · subst hc
      rw [findLt_cons_lt] at h
      cases h
      simp
    · rw [findLt_cons_ne c rest hc] at h
      cases hr : findLt rest with
      | none => rw [hr] at h; simp at h
      | some m =>
        rw [hr] at h
        simp only [Option.map_some'] at h
        injection h with h'
        subst h'
        simp only [List.drop_succ_cons]
        exact ih m hr

/-- The last normalization step leaves either a `<`-headed list or a
list containing no `<` at all. -/
theorem ltTrim_spec (l : List Char) :
    (ltTrim l).head? = some '<' ∨ '<' ∉ ltTrim l := by
  unfold ltTrim
  cases h : findLt l with
  | none => exact Or.inr ((findLt_none_iff l).mp h)
  | some k => exact Or.inl (findLt_drop l k h)

/-- Successful results of the normalizer are the empty string (for
non-string input) or the output of the final `<`-truncation step. -/
theorem clean_ok_shape (v : PyValue) (r : String)
    (h : clean_xml_string v = .ok r) :
    r = "" ∨ ∃ l : List Char, r.data = ltTrim l := by
  match v with
  | .nonStr =>
    left
    simpa [clean_xml_string] using h.symm
  | .str s =>
    right
    simp only [clean_xml_string] at h
    cases hu : uDec (utf8Encode s.data) with
    | error e => rw [hu] at h; simp at h
    | ok cs =>
      rw [hu] at h
      simp only [Except.ok.injEq] at h
      exact ⟨_, by rw [← h]⟩

/-- Function `clean_xml_string` fails exactly when the `unicode_escape` decoding
of step 1 fails; every later step is total. -/
theorem clean_error_iff (s e : String) :
    clean_xml_string (.str s) = .error e ↔
      uDec (utf8Encode s.data) = .error e := by
  simp only [clean_xml_string]
  cases hu : uDec (utf8Encode s.data) <;> simp

/-- ASCII characters encode to their own single byte. -/
theorem utf8EncodeChar_ascii (c : Char) (h : c.toNat < 128) :
    utf8EncodeChar c = [c.toNat] := by
  unfold utf8EncodeChar
  rw [if_pos h]

/-- Recover a character from its code point. -/
theorem cpChar_toNat (c : Char) : cpChar c.toNat = c := by
  unfold cpChar
  exact Char.ofNat_toNat c

/-- Characters with distinct code points are distinct. -/
theorem char_toNat_ne {c d : Char} (h : c ≠ d) : c.toNat ≠ d.toNat := by
  intro hn
  exact h (by rw [← cpChar_toNat c, ← cpChar_toNat d, hn])

/-- The `unicode_escape` decoding is the identity on UTF-8 bytes of ASCII
text containing no backslash. -/
theorem uDecF_ascii :
    ∀ (l : List Char) (fuel : Nat),
      (∀ c ∈ l, c.toNat < 128 ∧ c ≠ '\\') → l.length ≤ fuel →
      uDecF fuel (utf8Encode l) = .ok l := by
  intro l
  induction l with
  | nil => intro fuel _ _; rw [utf8Encode, uDecF]
  | cons c cs ih =>
    intro fuel h hlen
    have hc := h c (List.mem_cons_self c cs)
    have hcs : ∀ x ∈ cs, x.toNat < 128 ∧ x ≠ '\\' :=
      fun x hx => h x (List.mem_cons_of_mem c hx)
    rw [utf8Encode, utf8EncodeChar_ascii c hc.1, List.cons_append,
      List.nil_append]
    match fuel, hlen with
    | fuel + 1, hlen2 =>
      have hne : c.toNat ≠ 92 := by
        have : ('\\' : Char).toNat = 92 := by decide
        rw [← this]
        exact char_toNat_ne hc.2
      have hlen3 : cs.length ≤ fuel := by
        simp only [List.length_cons] at hlen2
        omega
      rw [uDecF, if_pos hne, ih fuel hcs hlen3]
      simp [cpChar_toNat, Except.map]

/-- Each character contributes at least one byte. -/
theorem utf8Encode_len : ∀ l : List Char, l.length ≤ (utf8Encode l).length := by
  intro l
  induction l with
  | nil => simp [utf8Encode]
  | cons c cs ih =>
    rw [utf8Encode]
    have h1 : 1 ≤ (utf8EncodeChar c).length := by
      unfold utf8EncodeChar
      split
      · simp
      · split
        · simp
        · split <;> simp
    simp only [List.length_append, List.length_cons]
    omega

/-- Function `uDec` is the identity on ASCII text without backslashes. -/
theorem uDec_ascii (l : List Char)
    (h : ∀ c ∈ l, c.toNat < 128 ∧ c ≠ '\\') :
    uDec (utf8Encode l) = .ok l := by
  unfold uDec
  exact uDecF_ascii l (utf8Encode l).length h (utf8Encode_len l)

/-- The fuelled unescaper is the identity on text without an ampersand. -/
theorem htmlUnescapeF_no_amp : ∀ (l : List Char) (fuel : Nat), '&' ∉ l →
    l.length ≤ fuel → htmlUnescapeF fuel l = l := by
  intro l
  induction l with
  | nil => intro fuel _ _; rw [htmlUnescapeF]
  | cons c rest ih =>
    intro fuel h hlen
    have hc : c ≠ '&' := fun hcon => h (hcon ▸ List.mem_cons_self c rest)
    have hrest : '&' ∉ rest := fun hcon => h (List.mem_cons_of_mem c hcon)
    match fuel, hlen with
    | fuel + 1, hlen =>
      rw [htmlUnescapeF, if_neg hc,
        ih fuel hrest (by simpa using Nat.le_of_succ_le_succ hlen)]

/-- Step `html.unescape` is the identity on text without an ampersand. -/
theorem htmlUnescape_no_amp (l : List Char) (h : '&' ∉ l) :
    htmlUnescape l = l :=
  htmlUnescapeF_no_amp l l.length h le_rfl

/-- Unfolding: `collapseDQ` on the empty list. -/
theorem collapseDQ_nil : collapseDQ [] = [] := by
  rw [collapseDQ.eq_def]

/-- Unfolding: a doubled double quote collapses. -/
theorem collapseDQ_dq_dq (r2 : List Char) :
    collapseDQ (dqC :: dqC :: r2) = dqC :: collapseDQ r2 := by
  rw [collapseDQ.eq_def]
  simp

/-- Unfolding: a double quote followed by another character. -/
theorem collapseDQ_dq_ne (d : Char) (r2 : List Char) (h : d ≠ dqC) :
    collapseDQ (dqC :: d :: r2) = dqC :: collapseDQ (d :: r2) := by
  rw [collapseDQ.eq_def]
  simp [h]

/-- Unfolding: a final lone double quote. -/
theorem collapseDQ_dq_nil : collapseDQ [dqC] = [dqC] := by
  rw [collapseDQ.eq_def]
  simp

/-- Unfolding: a non-quote head passes through. -/
theorem collapseDQ_cons_ne (c : Char) (rest : List Char) (h : c ≠ dqC) :
    collapseDQ (c :: rest) = c :: collapseDQ rest := by
  rw [collapseDQ.eq_def]
  simp [h]

/-- Collapsing doubled quotes commutes with subsequently removing all
quotes: `replace('""','"')` is invisible to the following
`replace('"','')`. -/
theorem filter_dq_collapseDQ : ∀ l : List Char,
    (collapseDQ l).filter (fun c => c ≠ dqC) =
      l.filter (fun c => c ≠ dqC) := by
  intro l
  induction l using collapseDQ.induct <;>
    simp_all [collapseDQ_nil, collapseDQ_dq_dq, collapseDQ_dq_ne,
      collapseDQ_dq_nil, collapseDQ_cons_ne, List.filter_cons]

/-- List `dropWhile` is the identity when the head fails the predicate. -/
theorem dropWhile_head_not (p : Char → Bool) (l : List Char)
    (h : ∀ c, l.head? = some c → p c = false) : l.dropWhile p = l := by
  cases l with
  | nil => rfl
  | cons a r =>
    rw [List.dropWhile_cons, if_neg]
    simp [h a rfl]

/-- Python `str.strip()` is the identity when neither end is whitespace. -/
theorem pyStripL_id (l : List Char)
    (hhead : ∀ c, l.head? = some c → pyIsSpace c = false)
    (hlast : ∀ c, l.getLast? = some c → pyIsSpace c = false) :
    pyStripL l = l := by
  unfold pyStripL
  rw [dropWhile_head_not pyIsSpace l hhead]
  rw [dropWhile_head_not pyIsSpace l.reverse
    (fun c hc => hlast c (by rwa [List.head?_reverse] at hc))]
  exact List.reverse_reverse l

/-- Function `findQM` steps over a head that is not `?`. -/
theorem findQM_cons_ne (c : Char) (rest : List Char) (h : c ≠ '?') :
    findQM (c :: rest) = (findQM rest).map (· + 1) := by
  rw [findQM.eq_def]
  split <;> simp_all

/-- Without any `?` there is no XML-declaration terminator. -/
theorem findQM_none_of_no_q : ∀ l : List Char, '?' ∉ l →
    findQM l = none := by
  intro l
  induction l with
  | nil => intro _; rfl
  | cons c rest ih =>
    intro h
    have hc : c ≠ '?' := fun hcon => h (hcon ▸ List.mem_cons_self c rest)
    have hrest : '?' ∉ rest := fun hcon => h (List.mem_cons_of_mem c hcon)
    rw [findQM_cons_ne c rest hc, ih hrest]
    rfl

/-- The declaration-splicing step is the identity on text without `?`. -/
theorem declTrim_id (l : List Char) (h : '?' ∉ l) : declTrim l = l := by
  unfold declTrim
  rw [findQM_none_of_no_q l h]

/-- The `<`-truncation step is the identity on `<`-headed text. -/
theorem ltTrim_id_of_head (l : List Char) (h : l.head? = some '<') :
    ltTrim l = l := by
  cases l with
  | nil => simp at h
  | cons c rest =>
    simp only [List.head?_cons, Option.some.injEq] at h
    subst h
    unfold ltTrim
    rw [findLt_cons_lt]
    rfl

/-- Strings are determined by their character data. -/
theorem string_mk_data (s : String) : String.mk s.data = s := rfl

/-- C6, amended: normalizing already-normalized well-formed XML text
returns it unchanged PROVIDED the text is escape-stable: ASCII,
`<`-headed, without trailing whitespace, containing no backslash,
ampersand, comma or question mark, and such that removing all double
quotes and re-running the attribute-repair regex reproduces it (true in
particular when every double quote stems from a repaired attribute, as
in `version="1.0"`).  Without these provisos idempotence fails, because
the escape-resolution steps of the pipeline can apply again. -/
theorem C6_idempotent_amended (t : String)
    (hascii : ∀ c ∈ t.data, c.toNat < 128 ∧ c ≠ '\\')
    (hamp : '&' ∉ t.data)
    (hcomma : ',' ∉ t.data)
    (hq : '?' ∉ t.data)
    (hfix : fixAttrs (t.data.filter (fun c => c ≠ dqC)) = t.data)
    (hhead : t.data.head? = some '<')
    (hlastd : (t.data.getLast?.map pyIsSpace).getD false = false) :
    clean_xml_string (.str t) = .ok t := by
  have hlast : ∀ c, t.data.getLast? = some c → pyIsSpace c = false := by
    intro c hc
    rw [hc] at hlastd
    simpa using hlastd
  simp only [clean_xml_string]
  rw [uDec_ascii t.data hascii]
  simp only
  rw [htmlUnescape_no_amp t.data hamp]
  have hcfilter : t.data.filter (fun c => c ≠ ',') = t.data :=
    List.filter_eq_self.mpr (fun a ha => by
      simp only [ne_eq, decide_not, Bool.not_eq_true', decide_eq_false_iff_not]
      exact fun heq => hcomma (heq ▸ ha))
  rw [hcfilter, filter_dq_collapseDQ t.data, hfix]
  rw [pyStripL_id t.data
    (fun c hc => by
      rw [hhead] at hc
      injection hc with hc2
      subst hc2
      decide)
    hlast]
  rw [declTrim_id t.data hq, ltTrim_id_of_head t.data hhead, string_mk_data]

/-- A reference id with no matching test record yields exactly the
`(No Match)` overview line and warning. -/
theorem processEntry_noMatch (parse : String → Except String XmlElem)
    (tests : List TestEntry) (r : RefEntry)
    (h : lookupTest tests (pyStrip r.id) = none) :
    processEntry parse tests r =
      .ok ("test " ++ pyStrip r.id ++ " fail (No Match)",
        [noMatchMsg (pyStrip r.id)]) := by
  simp only [processEntry, h]

/-- When both sides normalize and parse, the record's outcome is decided
solely by emptiness of the diff list. -/
theorem processEntry_parsed (parse : String → Except String XmlElem)
    (tests : List TestEntry) (r : RefEntry) (t : TestEntry)
    (refStr testStr : String) (A B : XmlElem)
    (hlook : lookupTest tests (pyStrip r.id) = some t)
    (hcr : clean_xml_string r.rawXml = .ok refStr)
    (hct : clean_xml_string t.content = .ok testStr)
    (hpr : parse_xml parse refStr = .ok A)
    (hpt : parse_xml parse testStr = .ok B) :
    processEntry parse tests r =
      .ok (if (compare_xml A B).isEmpty then
        ("test " ++ pyStrip r.id ++ " pass",
          [mkHeader r (pyStrip t.title), okMsg (pyStrip r.id)])
      else
        ("test " ++ pyStrip r.id ++ " fail",
          [mkHeader r (pyStrip t.title), diffFoundMsg (pyStrip r.id)] ++
          (compare_xml A B).map (fun d => "   - " ++ d) ++ [""])) := by
  simp only [processEntry, hlook, hcr, hct, hpr, hpt]
  by_cases hd : (compare_xml A B).isEmpty <;> simp [hd]

/-- A caught parse failure on the reference side yields exactly the
`(XML Error)` overview line, and the batch entry still returns a value. -/
theorem processEntry_parse_err_ref (parse : String → Except String XmlElem)
    (tests : List TestEntry) (r : RefEntry) (t : TestEntry)
    (refStr testStr e : String)
    (hlook : lookupTest tests (pyStrip r.id) = some t)
    (hcr : clean_xml_string r.rawXml = .ok refStr)
    (hct : clean_xml_string t.content = .ok testStr)
    (hpr : parse_xml parse refStr = .error e) :
    processEntry parse tests r =
      .ok ("test " ++ pyStrip r.id ++ " fail (XML Error)",
        [mkHeader r (pyStrip t.title), xmlErrMsg (pyStrip r.id) e]) := by
  simp only [processEntry, hlook, hcr, hct, hpr]

/-- A caught parse failure on the test side yields exactly the
`(XML Error)` overview line. -/
theorem processEntry_parse_err_test (parse : String → Except String XmlElem)
    (tests : List TestEntry) (r : RefEntry) (t : TestEntry)
    (refStr testStr e : String) (A : XmlElem)
    (hlook : lookupTest tests (pyStrip r.id) = some t)
    (hcr : clean_xml_string r.rawXml = .ok refStr)
    (hct : clean_xml_string t.content = .ok testStr)
    (hpr : parse_xml parse refStr = .ok A)
    (hpt : parse_xml parse testStr = .error e) :
    processEntry parse tests r =
      .ok ("test " ++ pyStrip r.id ++ " fail (XML Error)",
        [mkHeader r (pyStrip t.title), xmlErrMsg (pyStrip r.id) e]) := by
  simp only [processEntry, hlook, hcr, hct, hpr, hpt]

/-- The overview line a record contributes, when its entry returns. -/
def entryLine (parse : String → Except String XmlElem)
    (tests : List TestEntry) (r : RefEntry) : String :=
  ((processEntry parse tests r).toOption.map Prod.fst).getD ""

/-- When every record's entry returns a value, the loop returns one
overview line per reference record, in input order. -/
theorem processAll_ok (parse : String → Except String XmlElem)
    (tests : List TestEntry) :
    ∀ refs : List RefEntry,
      (∀ r ∈ refs, (processEntry parse tests r).isOk = true) →
      ∃ det, processAll parse tests refs =
        .ok (refs.map (entryLine parse tests), det) := by
  intro refs
  induction refs with
  | nil => intro _; exact ⟨[], rfl⟩
  | cons r rs ih =>
    intro h
    have hr := h r (List.mem_cons_self r rs)
    obtain ⟨ld, hpe⟩ : ∃ x, processEntry parse tests r = .ok x := by
      cases hp : processEntry parse tests r with
      | error e => rw [hp] at hr; simp [Except.isOk, Except.toBool] at hr
      | ok x => exact ⟨x, rfl⟩
    obtain ⟨line, det0⟩ := ld
    obtain ⟨det', hall⟩ := ih (fun x hx => h x (List.mem_cons_of_mem r hx))
    refine ⟨det0 ++ det', ?_⟩
    simp only [processAll, hpe, hall, List.map_cons]
    have hline : entryLine parse tests r = line := by
      simp [entryLine, hpe, Except.toOption]
    rw [hline]

/-- C1, counterexample to the claim as stated: two root nodes with the
same local name `a` under different namespace URIs have equal stripped
names, yet `compare_xml` emits a `TagMismatch` (the code at
comparison.py line 109 compares `elem_a.tag != elem_b.tag`, the full
qualified names). -/
theorem C1_counterexample :
    strip_namespace (XmlElem.mk "\x7bns1\x7da" [] none none []).tag =
      strip_namespace (XmlElem.mk "\x7bns2\x7da" [] none none []).tag ∧
    compare_xml (XmlElem.mk "\x7bns1\x7da" [] none none [])
      (XmlElem.mk "\x7bns2\x7da" [] none none []) =
      [render (.tagMismatch "" "a" "a")] := by
  constructor
  · decide
  · rw [compare_xml_evalF 1000000 _ _ (by decide)]
    decide

/-- C2, amended: `clean_xml_string` maps every non-string input to the
empty string and never fails EXCEPT when the backslash-unescaping step
(`raw.encode("utf-8").decode("unicode_escape")`) fails on a malformed
escape sequence; that exception propagates out uncaught. -/
theorem C2_total_except_decode :
    clean_xml_string PyValue.nonStr = .ok "" ∧
    ∀ (s e : String), clean_xml_string (.str s) = .error e ↔
      uDec (utf8Encode s.data) = .error e :=
  ⟨rfl, clean_error_iff⟩

/-- C2, counterexample to totality as claimed: a single backslash is a
string input on which `clean_xml_string` raises
(`UnicodeDecodeError: \ at end of string`) instead of returning a
string. -/
theorem C2_counterexample :
    clean_xml_string (.str "\\") = .error uEndMsg := by decide

/-- C3, amended: a node pair with EQUAL qualified tags whose local name
is in the ignore set contributes no entry and its subtree is never
visited; but the tag comparison precedes the ignore check, so a pair
with differing qualified tags emits a `TagMismatch` even when the local
names are ignored. -/
theorem C3_ignored_amended :
    ∀ (a b : XmlElem) (p : String),
      (a.tag = b.tag → strip_namespace a.tag ∈ IGNORED_TAGS →
        recurseCmp a b p = []) ∧
      (a.tag ≠ b.tag →
        recurseCmp a b p =
          [.tagMismatch p (strip_namespace a.tag) (strip_namespace b.tag)]) :=
  fun a b p => ⟨recurseCmp_ignored a b p, recurseCmp_tag_mismatch a b p⟩

/-- C3, witness: a matching `MsgId` pair with wildly different text and
children contributes nothing. -/
theorem C3_witness :
    recurseCmp (XmlElem.mk "MsgId" [] (some "aaa") none [])
      (XmlElem.mk "MsgId" [] (some "bbb") none
        [XmlElem.mk "X" [] none none []]) "" = [] :=
  (C3_ignored_amended _ _ _).1 rfl (by decide)

/-- C3, counterexample to the claim as stated: both nodes bear the
ignored local name `MsgId`, but under different namespaces; the ignored
node still contributes a `DiffEntry` because the tag check fires first. -/
theorem C3_counterexample :
    strip_namespace (XmlElem.mk "\x7bns1\x7dMsgId" [] none none []).tag ∈
      IGNORED_TAGS ∧
    strip_namespace (XmlElem.mk "\x7bns2\x7dMsgId" [] none none []).tag ∈
      IGNORED_TAGS ∧
    compare_xml (XmlElem.mk "\x7bns1\x7dMsgId" [] none none [])
      (XmlElem.mk "\x7bns2\x7dMsgId" [] none none []) ≠ [] := by
  refine ⟨by decide, by decide, ?_⟩
  rw [compare_xml_evalF 1000000 _ _ (by decide)]
  decide

/-- C4, amended: every string returned by `clean_xml_string` either
starts with `<` or contains no `<` at all (in particular it may be a
nonempty string without any `<`, which the claimed disjunction with the
empty string does not allow). -/
theorem C4_starts_lt_or_no_lt :
    ∀ (v : PyValue) (r : String), clean_xml_string v = .ok r →
      r.data.head? = some '<' ∨ '<' ∉ r.data := by
  intro v r h
  rcases clean_ok_shape v r h with h1 | ⟨l, h2⟩
  · subst h1
    right
    simp
  · rw [h2]
    exact ltTrim_spec l

/-- C4, witness: a concrete normalized result headed by `<`. -/
theorem C4_witness :
    "<a>".data.head? = some '<' ∨ '<' ∉ "<a>".data :=
  C4_starts_lt_or_no_lt (.str "<a>") "<a>" (by decide)

/-- C4, counterexample to the claim as stated: the string input `abc`
contains no `<`, and `clean_xml_string` returns it as-is — a nonempty
result that does not start with `<`. -/
theorem C4_counterexample :
    clean_xml_string (.str "abc") = .ok "abc" ∧ "abc" ≠ "" ∧
      ¬("abc".data.head? = some '<') := by decide

/-- Overview lines for distinct outcomes differ. -/
theorem pass_ne_fail (i : String) :
    ("test " ++ i ++ " pass") ≠ ("test " ++ i ++ " fail") := by
  intro h
  have h2 := congrArg String.data h
  simp only [String.data_append, List.append_assoc] at h2
  have h3 := List.append_cancel_left h2
  have h4 := List.append_cancel_left h3
  exact absurd h4 (by decide)

/-- C5: for a record pair in which both normalized texts parse, the
outcome is the `pass` overview line if and only if `compare_xml`
returns the empty diff list; otherwise the `fail` line, with every diff
entry rendered as one indented detail line — and the two lines are
distinct, so both directions hold. -/
theorem C5_pass_iff_empty_diff (parse : String → Except String XmlElem)
    (tests : List TestEntry) (r : RefEntry) (t : TestEntry)
    (refStr testStr : String) (A B : XmlElem)
    (hlook : lookupTest tests (pyStrip r.id) = some t)
    (hcr : clean_xml_string r.rawXml = .ok refStr)
    (hct : clean_xml_string t.content = .ok testStr)
    (hpr : parse_xml parse refStr = .ok A)
    (hpt : parse_xml parse testStr = .ok B) :
    processEntry parse tests r =
      .ok ((if compare_xml A B = [] then "test " ++ pyStrip r.id ++ " pass"
            else "test " ++ pyStrip r.id ++ " fail"),
           (if compare_xml A B = [] then
              [mkHeader r (pyStrip t.title), okMsg (pyStrip r.id)]
            else
              [mkHeader r (pyStrip t.title), diffFoundMsg (pyStrip r.id)] ++
              (compare_xml A B).map (fun d => "   - " ++ d) ++ [""])) ∧
    ("test " ++ pyStrip r.id ++ " pass") ≠
      ("test " ++ pyStrip r.id ++ " fail") := by
  refine ⟨?_, pass_ne_fail (pyStrip r.id)⟩
  rw [processEntry_parsed parse tests r t refStr testStr A B hlook hcr hct
    hpr hpt]
  by_cases hd : compare_xml A B = []
  · rw [if_pos hd, if_pos hd, if_pos (by simp [hd])]
  · rw [if_neg hd, if_neg hd,
      if_neg (by simpa [List.isEmpty_iff] using hd)]

/-- Reference tree used by the C5 witness. -/
def treeP : XmlElem := .mk "P" [] none none []

/-- Test tree used by the C5 witness. -/
def treeQ : XmlElem := .mk "Q" [] none none []

/-- Parser collaborator used by the C5 witness. -/
def parseC5 : String → Except String XmlElem :=
  fun s => if s = "<p/>" then .ok treeP else .ok treeQ

/-- Reference record used by the C5 witness. -/
def refC5 : RefEntry := ⟨"5", "n", "d", "e", .str "<p/>"⟩

/-- Test record used by the C5 witness. -/
def testC5 : TestEntry := ⟨"5", .str "<q/>"⟩

/-- C5, witness: a mismatching concrete pair produces the `fail` line
and one rendered diff line. -/
theorem C5_witness :
    processEntry parseC5 [testC5] refC5 =
      .ok ("test 5 fail",
        [mkHeader refC5 "5", diffFoundMsg "5",
         "   - " ++ render (.tagMismatch "" "P" "Q"), ""]) := by
  have h := C5_pass_iff_empty_diff parseC5 [testC5] refC5 testC5
    "<p/>" "<q/>" treeP treeQ (by decide) (by decide) (by decide) rfl rfl
  rw [h.1]
  have hne : compare_xml treeP treeQ = [render (.tagMismatch "" "P" "Q")] := by
    rw [compare_xml_evalF 1000000 _ _ (by decide)]
    decide
  rw [hne]
  rw [if_neg (by simp), if_neg (by simp)]
  decide

/-- C6, counterexample to idempotence as claimed: the input
`<a>\\n</a>` normalizes to the well-formed XML text `<a>\n</a>`
(literal backslash-n in the element text), but normalizing that output
again turns the backslash escape into a newline, changing the text. -/
theorem C6_counterexample :
    clean_xml_string (.str "<a>\\\\n</a>") = .ok "<a>\\n</a>" ∧
    clean_xml_string (.str "<a>\\n</a>") = .ok "<a>\n</a>" ∧
    "<a>\n</a>" ≠ "<a>\\n</a>" := by decide

/-- C6, witness: the spec's own Example-1 output, an attribute-bearing
normalized text, is reproduced unchanged by a second normalization. -/
theorem C6_witness :
    clean_xml_string (.str "<a version=\"1.0\"><b>x</b></a>") =
      .ok "<a version=\"1.0\"><b>x</b></a>" :=
  C6_idempotent_amended _ (by decide) (by decide) (by decide) (by decide)
    (by decide) (by decide) (by decide)

/-- C8: a node pair with mismatched (qualified) tags produces exactly
one `TagMismatch` and nothing else for that subtree — no recursion into
it, even when the deeper structure coincides — while sibling pairs
already scheduled are compared independently, the list diff being the
head pair's diff followed by the remaining pairs'. -/
theorem C8_tag_mismatch_short_circuit :
    (∀ (a b : XmlElem) (p : String), a.tag ≠ b.tag →
      recurseCmp a b p =
        [.tagMismatch p (strip_namespace a.tag) (strip_namespace b.tag)]) ∧
    (∀ (a b : XmlElem) (ra rb : List XmlElem) (p : String),
      cmpL (a :: ra) (b :: rb) p = recurseCmp a b p ++ cmpL ra rb p) :=
  ⟨recurseCmp_tag_mismatch, cmpL_cons_eq⟩

/-- C8, witness: mismatched tags over identical deep structure yield
exactly the one `TagMismatch`. -/
theorem C8_witness :
    recurseCmp
      (XmlElem.mk "A" [] none none [XmlElem.mk "C" [] (some "x") none []])
      (XmlElem.mk "B" [] none none [XmlElem.mk "C" [] (some "x") none []])
      "" = [.tagMismatch "" "A" "B"] :=
  C8_tag_mismatch_short_circuit.1 _ _ "" (by decide)

/-- C9: a `TagMismatch` records the parent's path, without the
mismatched node's own local name appended; `ValueMismatch`,
`AttributeMismatch` and `ChildCountMismatch` record the path extended
with the current node's local name. -/
theorem C9_entry_paths :
    ∀ (ta : String) (aa : List (String × String)) (xa tla : Option String)
      (ca : List XmlElem) (tb : String) (ab : List (String × String))
      (xb tlb : Option String) (cb : List XmlElem) (p : String),
      (ta ≠ tb →
        recurseCmp (.mk ta aa xa tla ca) (.mk tb ab xb tlb cb) p =
          [.tagMismatch p (strip_namespace ta) (strip_namespace tb)]) ∧
      (ta = tb → strip_namespace ta ∉ IGNORED_TAGS →
        recurseCmp (.mk ta aa xa tla ca) (.mk tb ab xb tlb cb) p =
          (if pyStrip (xa.getD "") ≠ pyStrip (xb.getD "") then
            [.valueMismatch (p ++ "/" ++ strip_namespace ta)
              (pyStrip (xa.getD "")) (pyStrip (xb.getD ""))] else []) ++
          (if ¬ attribEq aa ab then
            [.attrMismatch (p ++ "/" ++ strip_namespace ta) aa ab] else []) ++
          (if ca.length ≠ cb.length then
            [.childCountMismatch (p ++ "/" ++ strip_namespace ta)
              ca.length cb.length] else []) ++
          cmpL ca cb (p ++ "/" ++ strip_namespace ta)) := by
  intro ta aa xa tla ca tb ab xb tlb cb p
  constructor
  · intro h
    exact recurseCmp_tag_mismatch _ _ p h
  · intro hEq hIgn
    rw [recurseCmp_eq, if_neg (fun hcon => hcon hEq), if_neg hIgn]

/-- C9, witness: a text difference is reported at the extended path
`/Msg`, not at the parent path. -/
theorem C9_witness :
    recurseCmp (XmlElem.mk "Msg" [] (some "1") none [])
      (XmlElem.mk "Msg" [] (some "2") none []) "" =
      [.valueMismatch "/Msg" "1" "2"] := by
  rw [(C9_entry_paths "Msg" [] (some "1") none [] "Msg" [] (some "2") none
    [] "").2 rfl (by decide)]
  rw [cmpL_nil_nil]
  decide

/-- C10: `compare_xml` reads only each element's direct text content
(`elem.text`, trimmed); tail text is never consulted, so trees equal up
to tail text produce an empty diff list, and such a record pair is
reported with the `pass` overview line. -/
theorem C10_tail_text_ignored :
    ∀ (a b : XmlElem), equalModTail a b = true →
      compare_xml a b = [] ∧
      ∀ (parse : String → Except String XmlElem) (tests : List TestEntry)
        (r : RefEntry) (t : TestEntry) (refStr testStr : String),
        lookupTest tests (pyStrip r.id) = some t →
        clean_xml_string r.rawXml = .ok refStr →
        clean_xml_string t.content = .ok testStr →
        parse_xml parse refStr = .ok a →
        parse_xml parse testStr = .ok b →
        processEntry parse tests r =
          .ok ("test " ++ pyStrip r.id ++ " pass",
            [mkHeader r (pyStrip t.title), okMsg (pyStrip r.id)]) := by
  intro a b h
  have hemp := compare_xml_empty_of_equalModTail a b h
  refine ⟨hemp, ?_⟩
  intro parse tests r t refStr testStr hlook hcr hct hpr hpt
  rw [processEntry_parsed parse tests r t refStr testStr a b hlook hcr hct
    hpr hpt]
  rw [hemp]
  rfl

/-- First tree of the C10 witness: tails `T1` and `X`. -/
def treeT1 : XmlElem :=
  .mk "r" [] (some "t") (some "T1") [.mk "c" [] none (some "X") []]

/-- Second tree of the C10 witness: same structure, different tails. -/
def treeT2 : XmlElem :=
  .mk "r" [] (some "t") (some "T2") [.mk "c" [] none none []]

/-- C10, witness: trees differing only in tail text diff to empty. -/
theorem C10_witness : compare_xml treeT1 treeT2 = [] :=
  (C10_tail_text_ignored treeT1 treeT2
    (by rw [equalModTail_evalF 1000000 _ _ (by decide)]; decide)).1

/-- C7, amended: per-record failure isolation holds for parse failures
and missing matches — each such record yields exactly its overview line
(`fail (No Match)` or `fail (XML Error)`) and the loop returns one line
per record, in order — PROVIDED every record's normalization succeeds;
a normalization failure is not caught and aborts the batch (see the
counterexample). -/
theorem C7_isolation_amended :
    (∀ (parse : String → Except String XmlElem) (tests : List TestEntry)
        (refs : List RefEntry),
      (∀ r ∈ refs, (processEntry parse tests r).isOk = true) →
      ∃ det, processAll parse tests refs =
        .ok (refs.map (entryLine parse tests), det)) ∧
    (∀ (parse : String → Except String XmlElem) (tests : List TestEntry)
        (r : RefEntry),
      lookupTest tests (pyStrip r.id) = none →
      processEntry parse tests r =
        .ok ("test " ++ pyStrip r.id ++ " fail (No Match)",
          [noMatchMsg (pyStrip r.id)])) ∧
    (∀ (parse : String → Except String XmlElem) (tests : List TestEntry)
        (r : RefEntry) (t : TestEntry) (refStr testStr e : String),
      lookupTest tests (pyStrip r.id) = some t →
      clean_xml_string r.rawXml = .ok refStr →
      clean_xml_string t.content = .ok testStr →
      parse_xml parse refStr = .error e →
      processEntry parse tests r =
        .ok ("test " ++ pyStrip r.id ++ " fail (XML Error)",
          [mkHeader r (pyStrip t.title), xmlErrMsg (pyStrip r.id) e])) ∧
    (∀ (parse : String → Except String XmlElem) (tests : List TestEntry)
        (r : RefEntry) (t : TestEntry) (refStr testStr e : String)
        (A : XmlElem),
      lookupTest tests (pyStrip r.id) = some t →
      clean_xml_string r.rawXml = .ok refStr →
      clean_xml_string t.content = .ok testStr →
      parse_xml parse refStr = .ok A →
      parse_xml parse testStr = .error e →
      processEntry parse tests r =
        .ok ("test " ++ pyStrip r.id ++ " fail (XML Error)",
          [mkHeader r (pyStrip t.title), xmlErrMsg (pyStrip r.id) e])) :=
  ⟨processAll_ok, processEntry_noMatch,
   fun parse tests r t refStr testStr e =>
     processEntry_parse_err_ref parse tests r t refStr testStr e,
   fun parse tests r t refStr testStr e A =>
     processEntry_parse_err_test parse tests r t refStr testStr e A⟩

/-- Parser collaborator that rejects everything, used by C7. -/
def parseNone : String → Except String XmlElem :=
  fun _ => .error "not well-formed"

/-- Reference record whose raw text makes normalization raise. -/
def refBad : RefEntry := ⟨"1", "n", "d", "e", .str "\\"⟩

/-- Benign reference record scheduled after the failing one. -/
def refGood : RefEntry := ⟨"2", "n", "d", "e", .str "<x/>"⟩

/-- Test records matching both C7 reference records. -/
def testsC7 : List TestEntry := [⟨"1", .str "<x/>"⟩, ⟨"2", .str "<x/>"⟩]

/-- C7, counterexample to unconditional isolation: a record whose raw
text is a lone backslash makes `clean_xml_string` raise before the
`try` block, so the whole batch aborts with the uncaught exception and
the following record is never processed — though that record is
processed fine when the failing one is removed. -/
theorem C7_counterexample :
    process_comparison parseNone [refBad, refGood] testsC7 =
      .error uEndMsg ∧
    (process_comparison parseNone [refGood] testsC7).isOk = true := by
  decide

/-- C7, witness: with normalization succeeding, a parse-failing record
still yields its one overview line and the loop returns. -/
theorem C7_witness :
    ∃ det, processAll parseNone testsC7 [refGood] =
      .ok ([refGood].map (entryLine parseNone testsC7), det) :=
  C7_isolation_amended.1 parseNone testsC7 [refGood] (by decide)
